import Mathlib

/-!
Verification development for the InsiderWire filing-to-signal pipeline.

The definitions below are shallow embeddings of the TypeScript sources:
  packages/core/src/domain/scoring/calculator.ts and rules.ts
  packages/core/src/domain/sec/types.ts (isExecutiveRole, EXECUTIVE_TITLES)
  packages/core/src/domain/sec/parser.ts (Form4Parser)
  packages/core/src/sql/queries/insiders/mutations.ts and queries.ts
  packages/core/src/domain/pipeline (Form4Processor, DailyDigestAggregator)
  packages/core/src/domain/slack/formatters.ts (formatDailyDigest)

JavaScript numbers are modelled as real numbers where a transcendental
function (Math.log10) is involved and as rationals elsewhere; NaN is
modelled by Option.none at the points where the source can produce it.
JavaScript strings are modelled as Lean strings / lists of characters.
-/

/-! ## Generic JavaScript string helpers -/

/-- Case-insensitive character comparison, as performed by a JavaScript
regular expression compiled with the "i" flag. -/
def lowEq (a b : Char) : Bool := a.toLower == b.toLower

/-- Match a literal pattern case-insensitively at the head of the input and
return the remainder, or none when the input does not start with it. -/
def ciStrip : List Char → List Char → Option (List Char)
  | [], s => some s
  | _ :: _, [] => none
  | p :: ps, c :: cs => if lowEq p c then ciStrip ps cs else none

/-- Whitespace test used by the regular-expression class \s and by
String.prototype.trim (restricted to the ASCII whitespace that occurs in
this document family). -/
def isWsChar (c : Char) : Bool :=
  c == ' ' || c == '\t' || c == '\n' || c == '\r' || c == '\x0b' || c == '\x0c'

/-- Greedy \s* : drop leading whitespace. -/
def dropWsChars (s : List Char) : List Char := s.dropWhile isWsChar

/-- String.prototype.trim: whitespace removed from both ends. -/
def listTrim (s : List Char) : List Char :=
  ((dropWsChars ((dropWsChars s).reverse)).reverse)

/-- Case-sensitive prefix test on character lists. -/
def charsPrefixOf : List Char → List Char → Bool
  | [], _ => true
  | _ :: _, [] => false
  | p :: ps, c :: cs => p == c && charsPrefixOf ps cs

/-- String.prototype.includes: substring containment (case-sensitive). -/
def charsContains : List Char → List Char → Bool
  | [], pat => pat.isEmpty
  | s@(_ :: rest), pat => charsPrefixOf pat s || charsContains rest pat

/-- String.prototype.includes lifted to Lean strings. -/
def jsIncludes (s pat : String) : Bool := charsContains s.toList pat.toList

/-- Truthiness of a nullable JavaScript string: null and the empty string
are falsy, every other string is truthy. -/
def jsTruthy : Option String → Bool
  | none => false
  | some s => !s.isEmpty

/-! ## Scoring domain: packages/core/src/domain/sec/types.ts -/

/-- TRANSACTION_CODE_BUY from types.ts. -/
def TRANSACTION_CODE_BUY : String := "P"

/-- TRANSACTION_CODE_SELL from types.ts. -/
def TRANSACTION_CODE_SELL : String := "S"

/-- EXECUTIVE_TITLES from types.ts: the fixed executive-title substrings. -/
def EXECUTIVE_TITLES : List String :=
  ["CEO", "Chief Executive Officer", "CFO", "Chief Financial Officer",
   "Chairman", "Chairwoman", "Chair", "President", "COO",
   "Chief Operating Officer"]

/-- isExecutiveRole from types.ts: undefined or empty titles are falsy and
give false, otherwise the upper-cased title is tested for containment of
each upper-cased executive title. -/
def isExecutiveRole : Option String → Bool
  | none => false
  | some title =>
    if title.isEmpty then false
    else EXECUTIVE_TITLES.any (fun execTitle =>
      jsIncludes title.toUpper execTitle.toUpper)

/-! ## Scoring domain: packages/core/src/domain/scoring/calculator.ts -/

/-- ScoreInput from calculator.ts. Optional fields are modelled with
Option (undefined = none); the boolean flag is false when undefined since
the source only tests its truthiness. -/
structure ScoreInput where
  transactionCode : String
  transactionValue : ℝ
  insiderTitle : Option String
  isFirstActivityIn180Days : Bool
  additionalInsidersInCluster : Option ℕ

/-- Breakdown record inside ScoreResult from calculator.ts. -/
structure ScoreBreakdown where
  baseScore : ℝ
  sizeMultiplier : ℝ
  roleMultiplier : ℝ
  firstActivityBonus : ℝ
  clusterBonus : ℝ

/-- ScoreResult from calculator.ts. -/
structure ScoreResult where
  score : ℝ
  breakdown : ScoreBreakdown

/-- Number(x.toFixed(2)): rounding to two decimal places, modelled as
rounding 100x to the nearest integer. -/
noncomputable def round2 (x : ℝ) : ℝ := ((round (100 * x) : ℤ) : ℝ) / 100

/-- calculateSignalScore from calculator.ts. Math.log10 is modelled by
Real.logb 10; at transactionValue = 0 JavaScript computes
max(1, log10(0)) = max(1, -Infinity) = 1 and the model computes
max 1 (Real.logb 10 0) = max 1 0 = 1, the same value. -/
noncomputable def calculateSignalScore (input : ScoreInput) : ScoreResult :=
  let baseScore : ℝ := if input.transactionCode = "P" then 1 else -1
  let sizeMultiplier : ℝ := max 1 (Real.logb 10 (input.transactionValue / 10000))
  let roleMultiplier : ℝ := if isExecutiveRole input.insiderTitle then 1.5 else 1.0
  let firstActivityBonus : ℝ := if input.isFirstActivityIn180Days then 1 else 0
  let clusterBonus : ℝ := (input.additionalInsidersInCluster.getD 0 : ℕ)
  let score := (baseScore + firstActivityBonus + clusterBonus) * sizeMultiplier * roleMultiplier
  { score := round2 score
    breakdown :=
      { baseScore := baseScore
        sizeMultiplier := round2 sizeMultiplier
        roleMultiplier := roleMultiplier
        firstActivityBonus := firstActivityBonus
        clusterBonus := clusterBonus } }

/-- URGENT_ALERT_SCORE_THRESHOLD from rules.ts. -/
def URGENT_ALERT_SCORE_THRESHOLD : ℚ := 5.0

/-- URGENT_ALERT_VALUE_THRESHOLD from rules.ts. -/
def URGENT_ALERT_VALUE_THRESHOLD : ℚ := 250000

/-- shouldTriggerUrgentAlert from calculator.ts. The score and value are
exact decimals here, so rationals model the comparison faithfully. -/
def shouldTriggerUrgentAlert (signalScore transactionValue : ℚ) : Bool :=
  decide (URGENT_ALERT_SCORE_THRESHOLD ≤ |signalScore|) ||
  decide (URGENT_ALERT_VALUE_THRESHOLD ≤ transactionValue)

/-- Number(x.toFixed(2)) on rational inputs (computable variant). -/
def round2q (x : ℚ) : ℚ := ((round (100 * x) : ℤ) : ℚ) / 100

/-- calculateHoldingsDelta from calculator.ts. -/
def calculateHoldingsDelta (priorHoldings postTransactionHoldings : ℚ) : ℚ :=
  if priorHoldings = 0 then 0
  else round2q ((postTransactionHoldings - priorHoldings) / priorHoldings * 100)

/-! ## Form 4 parser: packages/core/src/domain/sec/parser.ts

The parser works by JavaScript regular expressions over the raw document.
Each fixed regular expression of the source is modelled by a dedicated
scanning function with the same leftmost-match and lazy-capture semantics;
the analysis of each pattern is recorded at its function. -/

/-- IssuerInfo from types.ts. -/
structure IssuerInfo where
  cik : String
  ticker : Option String
  companyName : String
deriving DecidableEq

/-- InsiderInfo from types.ts. -/
structure InsiderInfo where
  name : String
  title : Option String
  isDirector : Bool
  isOfficer : Bool
  isTenPercentOwner : Bool
  isOther : Bool
deriving DecidableEq

/-- TransactionInfo from types.ts. postTransactionShares is stored before
any NaN check in the source, so none models the NaN that
Number.parseFloat yields for a present but non-numeric field. -/
structure TransactionInfo where
  transactionDate : String
  transactionCode : String
  shares : ℚ
  pricePerShare : ℚ
  transactionValue : ℚ
  postTransactionShares : Option ℚ
  isDirectOwnership : Bool
  is10b51 : Bool
deriving DecidableEq

/-- Form4Data from types.ts. -/
structure Form4Data where
  accessionNumber : String
  filingDate : String
  issuer : IssuerInfo
  insider : InsiderInfo
  transactions : List TransactionInfo
deriving DecidableEq

/-- Lazy capture ([\s\S]*?) immediately followed by a case-insensitive
literal: the capture stops at the first occurrence of the literal, and
the split point and the remainder after the literal are returned. -/
def captureUntil (clo : List Char) : List Char → Option (List Char × List Char)
  | [] =>
    match ciStrip clo [] with
    | some rest => some ([], rest)
    | none => none
  | c :: cs =>
    match ciStrip clo (c :: cs) with
    | some rest => some ([], rest)
    | none =>
      match captureUntil clo cs with
      | some (cap, rest) => some (c :: cap, rest)
      | none => none

/-- Lazy capture ([\s\S]*?) followed by a case-insensitive literal and a
further pattern: the regular-expression engine backtracks over the
occurrences of the literal from the left until the continuation also
matches, so the first such occurrence wins. -/
def captureUntilCont (clo : List Char) (cont : List Char → Bool) : List Char → Option (List Char)
  | [] =>
    match ciStrip clo [] with
    | some rest => if cont rest then some [] else none
    | none => none
  | c :: cs =>
    match ciStrip clo (c :: cs) with
    | some rest =>
      if cont rest then some []
      else (captureUntilCont clo cont cs).map (fun cap => c :: cap)
    | none => (captureUntilCont clo cont cs).map (fun cap => c :: cap)

/-- The greedy fragment [^>]*> cannot cross a ">" character, so it
deterministically consumes everything up to and including the first ">";
it fails when no ">" remains. -/
def skipToGt : List Char → Option (List Char)
  | [] => none
  | c :: cs => if c == '>' then some cs else skipToGt cs

/-- One attempt of the pattern
<TAG[^>]*>\s*<value>([\s\S]*?)<\/value>\s*<\/TAG> at the head of the
input (case-insensitive). The trailing \s*<\/TAG> acts as the
continuation of the lazy capture. -/
def tryValueShapeAt (tag : List Char) (s : List Char) : Option (List Char) := do
  let r1 ← ciStrip ('<' :: tag) s
  let r2 ← skipToGt r1
  let r3 ← ciStrip "<value>".toList (dropWsChars r2)
  captureUntilCont "</value>".toList
    (fun rest => (ciStrip (['<', '/'] ++ tag ++ ['>']) (dropWsChars rest)).isSome) r3

/-- Leftmost match of the wrapper shape: the engine tries the full pattern
at every start position from the left. -/
def scanValueShape (tag : List Char) : List Char → Option (List Char)
  | [] => tryValueShapeAt tag []
  | s@(_ :: cs) =>
    match tryValueShapeAt tag s with
    | some cap => some cap
    | none => scanValueShape tag cs

/-- One attempt of the pattern <TAG[^>]*>([\s\S]*?)<\/TAG> at the head of
the input (case-insensitive). -/
def tryDirectShapeAt (tag : List Char) (s : List Char) : Option (List Char) := do
  let r1 ← ciStrip ('<' :: tag) s
  let r2 ← skipToGt r1
  let pr ← captureUntil (['<', '/'] ++ tag ++ ['>']) r2
  pure pr.1

/-- Leftmost match of the direct-content shape. -/
def scanDirectShape (tag : List Char) : List Char → Option (List Char)
  | [] => tryDirectShapeAt tag []
  | s@(_ :: cs) =>
    match tryDirectShapeAt tag s with
    | some cap => some cap
    | none => scanDirectShape tag cs

/-- extractText from parser.ts: wrapper shape first, then direct shape,
then null; a successful capture is trimmed. -/
def extractText (xml tagName : String) : Option String :=
  match scanValueShape tagName.toList xml.toList with
  | some cap => some (String.mk (listTrim cap))
  | none =>
    match scanDirectShape tagName.toList xml.toList with
    | some cap => some (String.mk (listTrim cap))
    | none => none

/-- Quote test for the character class ["'] of extractAttribute. -/
def isQuoteChar (c : Char) : Bool := c == '"' || c == Char.ofNat 39

/-- After an opening quote, the greedy class ([^"']+) followed by ["']
deterministically captures everything up to the next quote character and
requires that capture to be nonempty. -/
def captureAttrValue (s : List Char) : Option (List Char) :=
  match captureUntilQuote s with
  | some (cap, _) => if cap.isEmpty then none else some cap
  | none => none
where
  /-- Split at the first quote character. -/
  captureUntilQuote : List Char → Option (List Char × List Char)
    | [] => none
    | c :: cs =>
      if isQuoteChar c then some ([], cs)
      else
        match captureUntilQuote cs with
        | some (cap, rest) => some (c :: cap, rest)
        | none => none

/-- One attempt of the pattern ATTR=["']([^"']+)["'] at the head of the
input (case-insensitive). -/
def tryAttributeAt (attrName : List Char) (s : List Char) : Option (List Char) := do
  let r1 ← ciStrip (attrName ++ ['=']) s
  match r1 with
  | [] => none
  | q :: rest => if isQuoteChar q then captureAttrValue rest else none

/-- Leftmost match for extractAttribute. -/
def scanAttribute (attrName : List Char) : List Char → Option (List Char)
  | [] => tryAttributeAt attrName []
  | s@(_ :: cs) =>
    match tryAttributeAt attrName s with
    | some cap => some cap
    | none => scanAttribute attrName cs

/-- extractAttribute from parser.ts. -/
def extractAttribute (xml attrName : String) : Option String :=
  (scanAttribute attrName.toList xml.toList).map String.mk

/-! ### Number.parseFloat -/

/-- Decimal digit value. -/
def digitVal (c : Char) : Option ℕ :=
  if '0' ≤ c ∧ c ≤ '9' then some (c.toNat - '0'.toNat) else none

/-- Consume a maximal run of decimal digits, returning their value, their
count and the remainder. -/
def takeDigits : List Char → ℕ × ℕ × List Char
  | [] => (0, 0, [])
  | c :: cs =>
    match digitVal c with
    | some d =>
      let (v, n, rest) := takeDigits cs
      (d * 10 ^ n + v, n + 1, rest)
    | none => (0, 0, c :: cs)

/-- Optional sign, returning the sign factor and the remainder. -/
def takeSign : List Char → ℚ × List Char
  | [] => (1, [])
  | c :: cs =>
    if c == '-' then (-1, cs)
    else if c == '+' then (1, cs)
    else (1, c :: cs)

/-- Number.parseFloat: leading whitespace is skipped, then an optional
sign, a digit run, an optional fraction and an optional well-formed
exponent are consumed and trailing text is ignored; none models the NaN
returned when no digit is found. The model covers finite decimal
literals; the literal "Infinity", which parseFloat maps to a non-finite
number, is mapped to none. -/
def parseFloatQ (s : String) : Option ℚ :=
  let s1 := dropWsChars s.toList
  let (sign, s2) := takeSign s1
  let (ip, ipDigits, s3) := takeDigits s2
  let (fp, fpDigits, s4) :=
    match s3 with
    | c :: cs => if c == '.' then takeDigits cs else (0, 0, s3)
    | [] => (0, 0, s3)
  if ipDigits + fpDigits = 0 then none
  else
    let mantissa : ℚ := sign * ((ip : ℚ) + (fp : ℚ) / 10 ^ fpDigits)
    let expVal : ℤ :=
      match s4 with
      | c :: cs =>
        if c == 'e' || c == 'E' then
          let (esign, s5) := takeSign cs
          let (ev, evDigits, _) := takeDigits s5
          if evDigits = 0 then 0 else (if esign = -1 then -(ev : ℤ) else (ev : ℤ))
        else 0
      | [] => 0
    some (mantissa * (10 : ℚ) ^ expVal)

/-! ### Footnote lookup and the dynamically built RegExp -/

/-- Modelled validity of the RegExp that check10b51InFootnotes builds by
interpolating the raw footnoteId attribute value into its pattern source.
The surrounding pattern is well formed, so the constructor throws a
SyntaxError exactly when the interpolated fragment breaks it; the dominant
cases are an unmatched group parenthesis (outside a character class,
escapes respected) and a dangling trailing backslash, which this scanner
detects. -/
def regexInterpolationOk (footnoteId : String) : Bool :=
  go footnoteId.toList 0 false
where
  /-- Scan with the current unclosed-group count and in-class flag. -/
  go : List Char → ℕ → Bool → Bool
    | [], depth, _ => depth == 0
    | '\\' :: rest, depth, inClass =>
      match rest with
      | [] => false
      | _ :: rest2 => go rest2 depth inClass
    | c :: rest, depth, inClass =>
      if inClass then
        if c == ']' then go rest depth false else go rest depth true
      else if c == '[' then go rest depth true
      else if c == '(' then go rest (depth + 1) false
      else if c == ')' then
        match depth with
        | 0 => false
        | d + 1 => go rest d false
      else go rest depth false

/-- One attempt of the footnote pattern
<footnote[^>]*ID["'][^>]*>([\s\S]*?)<\/footnote> at the head of the input,
where ID is the interpolated id=["']FID["'] part. The greedy [^>]* blocks
backtrack within the run of non-">" characters; the id literal is matched
at each offset of that run. A well-formed footnoteId without
regular-expression metacharacters is matched literally, which is the only
way this function is exercised by the theorems below. -/
def tryFootnoteAt (fid : List Char) (s : List Char) : Option (List Char) := do
  let r1 ← ciStrip "<footnote".toList s
  let r2 ← findIdInTagRest r1
  let r3 ← skipToGt r2
  let pr ← captureUntil "</footnote>".toList r3
  pure pr.1
where
  /-- Search for id=["']FID["'] within the remaining non-">" run. -/
  findIdInTagRest : List Char → Option (List Char)
    | [] => none
    | c :: cs =>
      if c == '>' then none
      else
        match ciStrip "id=".toList (c :: cs) with
        | some r =>
          (match r with
           | q1 :: rest =>
             if isQuoteChar q1 then
               match ciStrip fid rest with
               | some r2 =>
                 (match r2 with
                  | q2 :: rest2 =>
                    if isQuoteChar q2 then some rest2 else findIdInTagRest cs
                  | [] => findIdInTagRest cs)
               | none => findIdInTagRest cs
             else findIdInTagRest cs
           | [] => findIdInTagRest cs)
        | none => findIdInTagRest cs

/-- Leftmost match of the footnote pattern. -/
def scanFootnote (fid : List Char) : List Char → Option (List Char)
  | [] => tryFootnoteAt fid []
  | s@(_ :: cs) =>
    match tryFootnoteAt fid s with
    | some cap => some cap
    | none => scanFootnote fid cs

/-- Lower-case a character list (String.prototype.toLowerCase). -/
def lowerChars (s : List Char) : List Char := s.map Char.toLower

/-- check10b51InFootnotes from parser.ts. A falsy footnoteId short-circuits
to false before any RegExp is built; otherwise the dynamically built
pattern is compiled, which throws when the interpolated id leaves the
pattern invalid, and the matched footnote text is lower-cased and tested
for the two plan-citation substrings. -/
def check10b51InFootnotes (xml : String) (footnoteId : Option String) : Except String Bool :=
  if !(jsTruthy footnoteId) then .ok false
  else
    let fid := footnoteId.getD ""
    if !(regexInterpolationOk fid) then
      .error "SyntaxError: Invalid regular expression"
    else
      match scanFootnote fid.toList xml.toList with
      | none => .ok false
      | some cap =>
        let footnoteText := lowerChars cap
        .ok (charsContains footnoteText "10b5-1".toList ||
             charsContains footnoteText "10b5".toList)

/-! ### Form4Parser methods -/

/-- Leading-zero stripping cik.replace of parseIssuer. -/
def stripLeadingZeros (s : String) : String :=
  String.mk (s.toList.dropWhile (fun c => c == '0'))

/-- Conversion x || undefined applied to a nullable string: the empty
string collapses to undefined. -/
def orUndefined : Option String → Option String
  | none => none
  | some s => if s.isEmpty then none else some s

/-- parseIssuer from parser.ts. -/
def parseIssuer (xml : String) : IssuerInfo :=
  let cik := (extractText xml "issuerCik").getD ""
  let companyName := (extractText xml "issuerName").getD ""
  let ticker := extractText xml "issuerTradingSymbol"
  { cik := stripLeadingZeros cik
    companyName := companyName
    ticker := orUndefined ticker }

/-- parseInsider from parser.ts. -/
def parseInsider (xml : String) : InsiderInfo :=
  let name := (extractText xml "rptOwnerName").getD ""
  let title := extractText xml "officerTitle"
  { name := name
    title := orUndefined title
    isDirector := decide (extractText xml "isDirector" = some "1")
    isOfficer := decide (extractText xml "isOfficer" = some "1")
    isTenPercentOwner := decide (extractText xml "isTenPercentOwner" = some "1")
    isOther := decide (extractText xml "isOther" = some "1") }

/-- parseTransactionElement from parser.ts. The Except layer carries the
SyntaxError that the dynamically built footnote RegExp can throw; .ok none
is the null return that discards the transaction. -/
def parseTransactionElement (txXml : String) : Except String (Option TransactionInfo) :=
  let transactionCode? := extractText txXml "transactionCode"
  if !(jsTruthy transactionCode?) then .ok none
  else
    let transactionCode := transactionCode?.getD ""
    if transactionCode ≠ TRANSACTION_CODE_BUY ∧ transactionCode ≠ TRANSACTION_CODE_SELL then
      .ok none
    else
      let transactionDate? := extractText txXml "transactionDate"
      if !(jsTruthy transactionDate?) then .ok none
      else
        let transactionDate := transactionDate?.getD ""
        let sharesStr? := extractText txXml "transactionShares"
        let priceStr? := extractText txXml "transactionPricePerShare"
        if !(jsTruthy sharesStr?) || !(jsTruthy priceStr?) then .ok none
        else
          match parseFloatQ (sharesStr?.getD ""), parseFloatQ (priceStr?.getD "") with
          | some shares, some price =>
            let postSharesStr? := extractText txXml "sharesOwnedFollowingTransaction"
            let postShares : Option ℚ :=
              if jsTruthy postSharesStr? then parseFloatQ (postSharesStr?.getD "")
              else some 0
            let ownershipCode := extractText txXml "directOrIndirectOwnership"
            let isDirectOwnership := decide (ownershipCode = some "D")
            let footnoteId := extractAttribute txXml "footnoteId"
            match check10b51InFootnotes txXml footnoteId with
            | .error e => .error e
            | .ok is10b51 =>
              .ok (some
                { transactionDate := transactionDate
                  transactionCode := transactionCode
                  shares := shares
                  pricePerShare := price
                  transactionValue := shares * price
                  postTransactionShares := postShares
                  isDirectOwnership := isDirectOwnership
                  is10b51 := is10b51 })
          | _, _ => .ok none

/-- Leftmost match of a table pattern <TABLE>([\s\S]*?)<\/TABLE>: the
first occurrence of the opening literal, captured lazily up to the first
closing literal after it; no later start can succeed when the first one
has no closing literal after it. -/
def findTableBlock (openLit cloLit : List Char) : List Char → Option (List Char)
  | [] => none
  | s@(_ :: cs) =>
    match ciStrip openLit s with
    | some rest => (captureUntil cloLit rest).map (fun pr => pr.1)
    | none => findTableBlock openLit cloLit cs

/-- matchAll over the repeated transaction pattern: non-overlapping
matches from the left, the search resuming after each closing literal.
The fuel argument (instantiated with the input length plus one) bounds
the number of blocks, each of which consumes at least one character. -/
def findTxBlocks (openLit cloLit : List Char) : ℕ → List Char → List (List Char)
  | 0, _ => []
  | _, [] => []
  | fuel + 1, s@(_ :: cs) =>
    match ciStrip openLit s with
    | some rest =>
      (match captureUntil cloLit rest with
       | some (cap, after) => cap :: findTxBlocks openLit cloLit fuel after
       | none => [])
    | none => findTxBlocks openLit cloLit (fuel + 1) cs
termination_by fuel s => (fuel, s)

/-- Loop body shared by extractNonDerivativeTransactions and
extractDerivativeTransactions: each block is parsed and pushed when
non-null; a thrown SyntaxError aborts the whole loop. -/
def collectTransactions : List (List Char) → Except String (List TransactionInfo)
  | [] => .ok []
  | b :: bs =>
    match parseTransactionElement (String.mk b) with
    | .error e => .error e
    | .ok none => collectTransactions bs
    | .ok (some tx) =>
      match collectTransactions bs with
      | .error e => .error e
      | .ok txs => .ok (tx :: txs)

/-- extractNonDerivativeTransactions from parser.ts. -/
def extractNonDerivativeTransactions (xml : String) : Except String (List TransactionInfo) :=
  match findTableBlock "<nonDerivativeTable>".toList "</nonDerivativeTable>".toList xml.toList with
  | none => .ok []
  | some tableXml =>
    collectTransactions
      (findTxBlocks "<nonDerivativeTransaction>".toList "</nonDerivativeTransaction>".toList
        (tableXml.length + 1) tableXml)

/-- extractDerivativeTransactions from parser.ts. -/
def extractDerivativeTransactions (xml : String) : Except String (List TransactionInfo) :=
  match findTableBlock "<derivativeTable>".toList "</derivativeTable>".toList xml.toList with
  | none => .ok []
  | some tableXml =>
    collectTransactions
      (findTxBlocks "<derivativeTransaction>".toList "</derivativeTransaction>".toList
        (tableXml.length + 1) tableXml)

/-- parseTransactions from parser.ts: the non-derivative table first, then
the derivative table, into one list. -/
def parseTransactions (xml : String) : Except String (List TransactionInfo) :=
  match extractNonDerivativeTransactions xml with
  | .error e => .error e
  | .ok nonDeriv =>
    match extractDerivativeTransactions xml with
    | .error e => .error e
    | .ok deriv => .ok (nonDeriv ++ deriv)

/-- Form4Parser.parse from parser.ts. The Except layer records that the
method can throw (via the dynamically built footnote RegExp); every other
code path returns a Form4Data value. -/
def Form4Parser.parse (xmlText accessionNumber filingDate : String) : Except String Form4Data :=
  let issuer := parseIssuer xmlText
  let insider := parseInsider xmlText
  match parseTransactions xmlText with
  | .error e => .error e
  | .ok transactions =>
    .ok { accessionNumber := accessionNumber
          filingDate := filingDate
          issuer := issuer
          insider := insider
          transactions := transactions }

/-! ## Persistence model: packages/core/src/sql/schema/insiders.ts and
packages/core/src/sql/queries/insiders/mutations.ts

A table is a list of rows; the transactions_dedupe unique constraint is
the composite natural key (filingAccession, insiderId, transactionDate,
shares, price) and ON CONFLICT DO UPDATE refreshes exactly the non-key
fields listed in upsertTransaction's set clause. -/

/-- One row of the transactions table (columns of insiders.ts; the id and
timestamp bookkeeping columns are irrelevant to the claims). -/
structure TxRow where
  filingAccession : String
  insiderId : String
  issuerId : String
  transactionDate : String
  transactionCode : String
  shares : ℚ
  price : ℚ
  transactionValue : ℚ
  postTransactionShares : ℚ
  isDirectOwnership : Bool
  is10b51 : Bool
  signalScore : ℚ
deriving DecidableEq

/-- The transactions_dedupe composite natural key of schema/insiders.ts. -/
def txKey (r : TxRow) : String × String × String × ℚ × ℚ :=
  (r.filingAccession, r.insiderId, r.transactionDate, r.shares, r.price)

/-- The non-key fields that upsertTransaction's set clause refreshes. -/
def txNonKey (r : TxRow) : String × ℚ × ℚ × Bool × Bool × ℚ :=
  (r.transactionCode, r.transactionValue, r.postTransactionShares,
   r.isDirectOwnership, r.is10b51, r.signalScore)

/-- ON CONFLICT DO UPDATE set clause of upsertTransaction: the conflicting
row keeps its key (and issuer) columns and takes the incoming non-key
columns. -/
def applySetClause (old incoming : TxRow) : TxRow :=
  { old with
    transactionCode := incoming.transactionCode
    transactionValue := incoming.transactionValue
    postTransactionShares := incoming.postTransactionShares
    isDirectOwnership := incoming.isDirectOwnership
    is10b51 := incoming.is10b51
    signalScore := incoming.signalScore }

/-- upsertTransaction from mutations.ts: insert, or on conflict with the
transactions_dedupe key update the conflicting row in place. -/
def upsertTransaction (table : List TxRow) (r : TxRow) : List TxRow :=
  if table.any (fun x => decide (txKey x = txKey r)) then
    table.map (fun x => if txKey x = txKey r then applySetClause x r else x)
  else
    table ++ [r]

/-- Number of rows carrying a given natural key. -/
def countKeyed (table : List TxRow) (k : String × String × String × ℚ × ℚ) : ℕ :=
  (table.filter (fun x => decide (txKey x = k))).length

/-! ## Query model: packages/core/src/sql/queries/insiders/queries.ts -/

/-- A dated transaction row as seen by the temporal lookups. Dates are
modelled as integer day numbers: the source compares ISO date strings,
whose lexicographic order agrees with day order. -/
structure DatedTx where
  insiderId : String
  transactionDate : ℤ
  postTransactionShares : ℚ
deriving DecidableEq

/-- SELECT max over a list of dates (ORDER BY transactionDate DESC LIMIT 1
applied to the date column alone). -/
def maxDate : List ℤ → Option ℤ
  | [] => none
  | d :: ds =>
    match maxDate ds with
    | none => some d
    | some m => some (max d m)

/-- getInsiderLastTransactionDate from queries.ts: the latest
transactionDate of the insider with transactionDate <= beforeDate. -/
def getInsiderLastTransactionDate (rows : List DatedTx) (insiderId : String)
    (beforeDate : ℤ) : Option ℤ :=
  maxDate (rows.filterMap (fun r =>
    if r.insiderId = insiderId ∧ r.transactionDate ≤ beforeDate then
      some r.transactionDate
    else none))

/-- ORDER BY transactionDate DESC LIMIT 1 over full rows. SQL leaves the
order of equal dates unspecified; the model keeps the earliest-listed row
among ties. -/
def pickLatest : List DatedTx → Option DatedTx
  | [] => none
  | r :: rs =>
    match pickLatest rs with
    | none => some r
    | some m => if m.transactionDate ≤ r.transactionDate then some r else some m

/-- getInsiderPreviousTransaction from queries.ts: the latest row of the
insider with transactionDate <= beforeDate (note the non-strict bound). -/
def getInsiderPreviousTransaction (rows : List DatedTx) (insiderId : String)
    (beforeDate : ℤ) : Option DatedTx :=
  pickLatest (rows.filter (fun r =>
    decide (r.insiderId = insiderId) && decide (r.transactionDate ≤ beforeDate)))

/-- One row of the slack_alerts table (schema/insiders.ts). -/
structure AlertRow where
  transactionId : String
  issuerId : String
  alertType : String
deriving DecidableEq

/-- hasSlackAlertForTransaction from queries.ts. -/
def hasSlackAlertForTransaction (alerts : List AlertRow) (transactionId alertType : String) : Bool :=
  alerts.any (fun a =>
    decide (a.transactionId = transactionId) && decide (a.alertType = alertType))

/-! ## Processor model: packages/core/src/domain/pipeline (Form4Processor) -/

/-- FIRST_ACTIVITY_DAYS from rules.ts, as a day count. -/
def FIRST_ACTIVITY_DAYS : ℤ := 180

/-- Form4Processor.checkFirstActivity: the cutoff is the transaction date
minus 180 days, and the answer is true when no last transaction exists or
the last one precedes the cutoff. -/
def checkFirstActivity (rows : List DatedTx) (insiderId : String) (transactionDate : ℤ) : Bool :=
  let cutoffDate := transactionDate - FIRST_ACTIVITY_DAYS
  match getInsiderLastTransactionDate rows insiderId transactionDate with
  | none => true
  | some lastTxDate => decide (lastTxDate < cutoffDate)

/-- Holdings-delta computation of Form4Processor.postUrgentAlert (lines
312-323): the previous transaction is looked up at the current
transaction's own date and the delta is undefined when none exists. -/
def computeAlertHoldingsDelta (rows : List DatedTx) (insiderId : String)
    (transactionDate : ℤ) (postTransactionShares : ℚ) : Option ℚ :=
  match getInsiderPreviousTransaction rows insiderId transactionDate with
  | some previousTx =>
    some (calculateHoldingsDelta previousTx.postTransactionShares postTransactionShares)
  | none => none

/-- One invocation of Form4Processor.postUrgentAlert, with the Slack send
outcome as an environment input. -/
structure UrgentPost where
  transactionId : String
  issuerId : String
  sendOk : Bool
deriving DecidableEq

/-- Form4Processor.postUrgentAlert effect on the slack_alerts table: an
existing urgent alert row short-circuits (nothing sent, nothing written);
otherwise the message is sent and the row is recorded only when the send
succeeded. The returned flag tells whether a message was sent. -/
def postUrgentAlert (alerts : List AlertRow) (p : UrgentPost) : List AlertRow × Bool :=
  if hasSlackAlertForTransaction alerts p.transactionId "urgent" then (alerts, false)
  else if p.sendOk then
    (alerts ++ [{ transactionId := p.transactionId, issuerId := p.issuerId, alertType := "urgent" }], true)
  else (alerts, false)

/-- Alert-writing steps a pipeline run can perform: an urgent post from
Form4Processor, or a digest record from DailyDigestAggregator (which
records alertType "digest" unconditionally per included transaction). -/
inductive AlertStep where
  | urgent : UrgentPost → AlertStep
  | digest : String → String → AlertStep
deriving DecidableEq

/-- Effect of one alert-writing step on the slack_alerts table. -/
def stepAlerts (alerts : List AlertRow) : AlertStep → List AlertRow
  | .urgent p => (postUrgentAlert alerts p).1
  | .digest transactionId issuerId =>
    alerts ++ [{ transactionId := transactionId, issuerId := issuerId, alertType := "digest" }]

/-- The slack_alerts table reached by a sequence of pipeline steps from an
empty database. -/
def runAlertSteps (steps : List AlertStep) : List AlertRow :=
  steps.foldl stepAlerts []

/-- Number of urgent alert rows for one transaction. -/
def urgentCount (alerts : List AlertRow) (transactionId : String) : ℕ :=
  (alerts.filter (fun a =>
    decide (a.transactionId = transactionId) && decide (a.alertType = "urgent"))).length

/-! ## Digest formatting: packages/core/src/domain/slack/formatters.ts -/

/-- The fields of one digest transaction that the per-ticker section reads. -/
structure DigestTx where
  insiderName : String
  transactionCode : String
  transactionValue : ℚ
  signalScore : ℚ
deriving DecidableEq

/-- Comparator of formatDailyDigest's per-ticker sort: descending absolute
signal score. -/
def absScoreGe (a b : DigestTx) : Bool := decide (|b.signalScore| ≤ |a.signalScore|)

/-- Insertion into a list sorted by descending absolute score. -/
def insertByAbsScore (tx : DigestTx) : List DigestTx → List DigestTx
  | [] => [tx]
  | y :: ys => if absScoreGe tx y then tx :: y :: ys else y :: insertByAbsScore tx ys

/-- The sort in formatDailyDigest: transactions ordered by descending
absolute signal score. -/
def sortByAbsScoreDesc : List DigestTx → List DigestTx
  | [] => []
  | x :: xs => insertByAbsScore x (sortByAbsScoreDesc xs)

/-- Per-ticker section of formatDailyDigest: the transactions rendered as
detail lines (the top 3 after the sort) and the optional context note
emitted when more than 3 transactions exist. The note text is the exact
mrkdwn string of the source. -/
def formatTickerSection (txs : List DigestTx) : List DigestTx × Option String :=
  let topInsiders := (sortByAbsScoreDesc txs).take 3
  (topInsiders,
   if 3 < txs.length then
     some ("_...and " ++ toString (txs.length - 3) ++ " more transactions_")
   else none)

/-! ## Concrete inputs used by individual claims -/

/-- A well-formed buy transaction whose footnoteId attribute value "F(1"
contains an unterminated group parenthesis. -/
def c3doc : String := "<nonDerivativeTable><nonDerivativeTransaction><transactionCode>P</transactionCode><transactionDate>2024-01-02</transactionDate><transactionShares>5</transactionShares><transactionPricePerShare>1</transactionPricePerShare>footnoteId=\"F(1\"</nonDerivativeTransaction></nonDerivativeTable>"

/-- A document whose only transaction states a negative share count. -/
def c9doc : String := "<nonDerivativeTable><nonDerivativeTransaction><transactionCode>P</transactionCode><transactionDate>2024-01-02</transactionDate><transactionShares>-5</transactionShares><transactionPricePerShare>1</transactionPricePerShare></nonDerivativeTransaction></nonDerivativeTable>"

/-- An earlier transaction of the insider, thirty days before the current one. -/
def c6prior : DatedTx :=
  { insiderId := "insider-1", transactionDate := 70, postTransactionShares := 500 }

/-- The current transaction, already upserted when postUrgentAlert runs. -/
def c6current : DatedTx :=
  { insiderId := "insider-1", transactionDate := 100, postTransactionShares := 1000 }

/-- Five digest transactions for one ticker, with distinct scores. -/
def c8five : List DigestTx :=
  [{ insiderName := "a", transactionCode := "P", transactionValue := 10, signalScore := 1 },
   { insiderName := "b", transactionCode := "S", transactionValue := 20, signalScore := -4 },
   { insiderName := "c", transactionCode := "P", transactionValue := 30, signalScore := 2 },
   { insiderName := "d", transactionCode := "P", transactionValue := 40, signalScore := 5 },
   { insiderName := "e", transactionCode := "S", transactionValue := 50, signalScore := -3 }]

/-! ## Shared helper lemmas -/

/-- Rounding to two decimals fixes integers. -/
lemma round2_intCast (n : ℤ) : round2 ((n : ℤ) : ℝ) = n := by
  unfold round2
  rw [show (100 : ℝ) * ((n : ℤ) : ℝ) = (((100 * n : ℤ) : ℤ) : ℝ) by push_cast; ring,
    round_intCast]
  push_cast
  field_simp

/-- Rounding to two decimals fixes one. -/
lemma round2_one : round2 1 = 1 := by
  have h := round2_intCast 1
  norm_num at h
  exact h

/-- Math.log10 of 100 is 2. -/
lemma logb_ten_hundred : Real.logb 10 100 = 2 := by
  rw [show (100 : ℝ) = 10 ^ (2 : ℕ) by norm_num, Real.logb_pow,
    Real.logb_self_eq_one (by norm_num)]
  norm_num

/-! ## Claims -/

set_option maxRecDepth 100000

/-- C7: the urgent-alert decision is true iff the absolute score reaches
5.0 or the transaction value reaches 250000, each alone sufficient; in
particular the decision at score 4.9 with value 240000 is false and the
decision at score 0.5 with value 250000 is true. -/
theorem C7_urgent_threshold :
    (∀ s v : ℚ, shouldTriggerUrgentAlert s v = true ↔ (5 ≤ |s| ∨ 250000 ≤ v)) ∧
    shouldTriggerUrgentAlert 4.9 240000 = false ∧
    shouldTriggerUrgentAlert 0.5 250000 = true := by
  refine ⟨fun s v => ?_, by with_unfolding_all decide, by with_unfolding_all decide⟩
  simp [shouldTriggerUrgentAlert, URGENT_ALERT_SCORE_THRESHOLD,
    URGENT_ALERT_VALUE_THRESHOLD]
  norm_num

/-- C10: executive-role detection is case-insensitive substring containment
against the fixed title list, so the non-executive title "Vice President"
is detected as executive (it contains "President") and the scorer applies
the 1.5 role multiplier exactly when the detection fires; every title
containing no listed substring, such as "Director", keeps multiplier 1.0. -/
theorem C10_executive_substring :
    (∀ title : String,
      isExecutiveRole (some title) = true ↔
        ∃ e ∈ EXECUTIVE_TITLES, jsIncludes title.toUpper e.toUpper = true) ∧
    (∀ input : ScoreInput,
      (calculateSignalScore input).breakdown.roleMultiplier =
        if isExecutiveRole input.insiderTitle then 1.5 else 1.0) ∧
    isExecutiveRole (some "Vice President") = true ∧
    isExecutiveRole (some "Director") = false ∧
    (∀ input : ScoreInput, isExecutiveRole input.insiderTitle = false →
      (calculateSignalScore input).breakdown.roleMultiplier = 1.0) := by
  refine ⟨fun title => ?_, fun input => rfl, by with_unfolding_all decide,
    by with_unfolding_all decide, fun input h => ?_⟩
  · by_cases h : title.isEmpty = true
    · have ht : title = "" := by rwa [String.isEmpty_iff] at h
      subst ht
      simp only [isExecutiveRole, h, if_true]
      constructor
      · intro hfalse
        exact absurd hfalse (by with_unfolding_all decide)
      · rintro ⟨e, he, hinc⟩
        fin_cases he <;> exact absurd hinc (by with_unfolding_all decide)
    · simp [isExecutiveRole, h, List.any_eq_true]
  · simp [calculateSignalScore, h]

/-- Witness for C10 at the title "Director". -/
theorem C10_executive_substring_witness :
    isExecutiveRole (some "Director") = false ∧
    (calculateSignalScore
      { transactionCode := "P", transactionValue := 100000,
        insiderTitle := some "Director", isFirstActivityIn180Days := false,
        additionalInsidersInCluster := none }).breakdown.roleMultiplier = 1.0 :=
  ⟨by with_unfolding_all decide,
   C10_executive_substring.2.2.2.2 _ (by with_unfolding_all decide)⟩

/-- C3 (code bug): parse is claimed never to throw, but on a document
whose footnoteId attribute value contains an unterminated group
parenthesis the dynamically built footnote RegExp fails to compile and
parse propagates the SyntaxError instead of returning a ParsedFiling. -/
theorem C3_parse_throws_on_metacharacter_footnote :
    Form4Parser.parse c3doc "0000000000-24-000001" "2024-01-03" =
      Except.error "SyntaxError: Invalid regular expression" := by
  with_unfolding_all rfl

/-- C6 (code bug): the previous-transaction lookup for the holdings delta
uses a non-strict date bound, so with the current transaction already
upserted it returns the current transaction itself (dated on, not
strictly before, the event date) and the computed delta is 0, whereas the
strictly-earlier transaction would give a delta of 100 percent. -/
theorem C6_previous_transaction_not_strict :
    getInsiderPreviousTransaction [c6prior, c6current] "insider-1" 100 = some c6current ∧
    computeAlertHoldingsDelta [c6prior, c6current] "insider-1" 100
      c6current.postTransactionShares = some 0 ∧
    calculateHoldingsDelta c6prior.postTransactionShares
      c6current.postTransactionShares = 100 := by
  refine ⟨by with_unfolding_all rfl, ?_, ?_⟩ <;> with_unfolding_all decide

/-- C1: for inputs whose code is P or S and whose value is nonnegative,
the score is (Base + FirstActivityBonus + ClusterBonus) multiplied by
SizeFactor and RoleFactor and rounded to two decimals, with Base +1 for P
and -1 for S, SizeFactor the floored base-10 logarithm (1.0 at value 0,
with a finite score), RoleFactor 1.5 iff the title matches, the bonuses
as supplied; in particular the sell-1000000-CFO example scores -3. -/
theorem C1_signal_score_formula :
    (∀ input : ScoreInput,
      (input.transactionCode = "P" ∨ input.transactionCode = "S") →
      0 ≤ input.transactionValue →
      ((calculateSignalScore input).score =
        round2 (((if input.transactionCode = "P" then 1 else -1) +
            (if input.isFirstActivityIn180Days then 1 else 0) +
            ((input.additionalInsidersInCluster.getD 0 : ℕ) : ℝ)) *
          max 1 (Real.logb 10 (input.transactionValue / 10000)) *
          (if isExecutiveRole input.insiderTitle then 1.5 else 1.0)) ∧
      (input.transactionValue = 0 →
        (calculateSignalScore input).breakdown.sizeMultiplier = 1))) ∧
    (calculateSignalScore
      { transactionCode := "S", transactionValue := 1000000,
        insiderTitle := some "CFO", isFirstActivityIn180Days := false,
        additionalInsidersInCluster := none }).score = -3 := by
  constructor
  · intro input hcode hval
    refine ⟨rfl, fun h0 => ?_⟩
    show round2 (max 1 (Real.logb 10 (input.transactionValue / 10000))) = 1
    rw [h0, zero_div, Real.logb_zero,
      show max (1:ℝ) 0 = 1 from max_eq_left (by norm_num)]
    exact round2_one
  · have hrole : isExecutiveRole (some "CFO") = true := by with_unfolding_all decide
    have hne : ("S":String) ≠ "P" := by with_unfolding_all decide
    have hlogb : Real.logb 10 ((1000000:ℝ) / 10000) = 2 := by
      rw [show ((1000000:ℝ) / 10000) = 100 by norm_num]
      exact logb_ten_hundred
    have h3 : round2 (-3 : ℝ) = -3 := by
      have h := round2_intCast (-3)
      push_cast at h
      exact h
    show round2 (((if ("S":String) = "P" then 1 else -1) +
        (if false then 1 else 0) + (((none : Option ℕ).getD 0 : ℕ) : ℝ)) *
      max 1 (Real.logb 10 ((1000000:ℝ) / 10000)) *
      (if isExecutiveRole (some "CFO") then 1.5 else 1.0)) = -3
    rw [if_neg hne, hrole, hlogb]
    norm_num [max_eq_right, h3]

/-- Witness for C1 at a buy with transaction value zero. -/
theorem C1_signal_score_formula_witness :
    (("P":String) = "P" ∨ ("P":String) = "S") ∧ ((0:ℝ) ≤ 0) ∧
    (calculateSignalScore
      { transactionCode := "P", transactionValue := 0, insiderTitle := none,
        isFirstActivityIn180Days := false,
        additionalInsidersInCluster := none }).breakdown.sizeMultiplier = 1 :=
  ⟨Or.inl rfl, le_refl 0,
   (C1_signal_score_formula.1 _ (Or.inl rfl) (le_refl 0)).2 rfl⟩

/-- Counterexample to C9 as stated: the parser accepts a transaction whose
stated share count is negative, so quantity > 0 does not hold for every
emitted transaction. -/
theorem C9_counterexample :
    Form4Parser.parse c9doc "0000000000-24-000002" "2024-01-03" = Except.ok
      { accessionNumber := "0000000000-24-000002"
        filingDate := "2024-01-03"
        issuer := { cik := "", ticker := none, companyName := "" }
        insider := { name := "", title := none, isDirector := false,
                     isOfficer := false, isTenPercentOwner := false, isOther := false }
        transactions := [{ transactionDate := "2024-01-02", transactionCode := "P",
                           shares := -5, pricePerShare := 1, transactionValue := -5,
                           postTransactionShares := some 0, isDirectOwnership := false,
                           is10b51 := false }] } ∧
    ¬ (0 < (-5 : ℚ)) := by
  constructor
  · with_unfolding_all rfl
  · with_unfolding_all decide

/-! ### Upsert lemmas for C2 -/

/-- The set clause keeps the natural key. -/
lemma txKey_applySetClause (x r : TxRow) : txKey (applySetClause x r) = txKey x := rfl

/-- The set clause installs the incoming non-key fields. -/
lemma txNonKey_applySetClause (x r : TxRow) : txNonKey (applySetClause x r) = txNonKey r := rfl

/-- Keyed row counts add over concatenation. -/
lemma countKeyed_append (t1 t2 : List TxRow) (k : String × String × String × ℚ × ℚ) :
    countKeyed (t1 ++ t2) k = countKeyed t1 k + countKeyed t2 k := by
  simp [countKeyed, List.filter_append]

/-- Keyed row count of a cons cell. -/
lemma countKeyed_cons (a : TxRow) (t : List TxRow) (k : String × String × String × ℚ × ℚ) :
    countKeyed (a :: t) k = (if txKey a = k then 1 else 0) + countKeyed t k := by
  simp only [countKeyed, List.filter_cons]
  by_cases h : txKey a = k <;> simp [h, Nat.add_comm]

/-- The conflict update leaves the keyed row count unchanged. -/
lemma countKeyed_map_set (t : List TxRow) (r : TxRow) :
    countKeyed (t.map (fun x => if txKey x = txKey r then applySetClause x r else x))
      (txKey r) = countKeyed t (txKey r) := by
  induction t with
  | nil => rfl
  | cons a t ih =>
    simp only [List.map_cons]
    by_cases h : txKey a = txKey r
    · rw [if_pos h]
      simp only [countKeyed_cons, txKey_applySetClause, ih]
    · rw [if_neg h]
      simp only [countKeyed_cons, ih]

/-- A hit in the conflict check gives at least one keyed row. -/
lemma countKeyed_pos_of_any (t : List TxRow) (r : TxRow)
    (h : t.any (fun x => decide (txKey x = txKey r)) = true) :
    1 ≤ countKeyed t (txKey r) := by
  rw [List.any_eq_true] at h
  obtain ⟨x, hx, hk⟩ := h
  exact List.length_pos_of_mem (List.mem_filter.mpr ⟨hx, hk⟩)

/-- A miss in the conflict check means no keyed row. -/
lemma countKeyed_zero_of_not_any (t : List TxRow) (r : TxRow)
    (h : ¬ t.any (fun x => decide (txKey x = txKey r)) = true) :
    countKeyed t (txKey r) = 0 := by
  have hf : t.any (fun x => decide (txKey x = txKey r)) = false := by
    simpa using h
  rw [List.any_eq_false] at hf
  simp only [countKeyed, List.length_eq_zero, List.filter_eq_nil_iff]
  exact hf

/-- One upsert leaves exactly one row with the incoming key. -/
lemma upsert_count_eq_one (t : List TxRow) (r : TxRow)
    (h : countKeyed t (txKey r) ≤ 1) :
    countKeyed (upsertTransaction t r) (txKey r) = 1 := by
  unfold upsertTransaction
  by_cases hany : t.any (fun x => decide (txKey x = txKey r)) = true
  · rw [if_pos hany, countKeyed_map_set]
    exact le_antisymm h (countKeyed_pos_of_any t r hany)
  · rw [if_neg hany, countKeyed_append, countKeyed_zero_of_not_any t r hany]
    simp [countKeyed]

/-- After an upsert, every row with the incoming key carries the incoming
non-key fields. -/
lemma upsert_nonkey (t : List TxRow) (r : TxRow) :
    ∀ x ∈ upsertTransaction t r, txKey x = txKey r → txNonKey x = txNonKey r := by
  intro x hx hk
  unfold upsertTransaction at hx
  by_cases hany : t.any (fun y => decide (txKey y = txKey r)) = true
  · rw [if_pos hany] at hx
    obtain ⟨y, hy, hxy⟩ := List.mem_map.mp hx
    by_cases h : txKey y = txKey r
    · rw [if_pos h] at hxy
      rw [← hxy]
      exact txNonKey_applySetClause y r
    · rw [if_neg h] at hxy
      subst hxy
      exact absurd hk h
  · rw [if_neg hany] at hx
    rcases List.mem_append.mp hx with hmem | hmem
    · exfalso
      have hf : t.any (fun y => decide (txKey y = txKey r)) = false := by simpa using hany
      rw [List.any_eq_false] at hf
      exact hf x hmem (by simp [hk])
    · simp only [List.mem_singleton] at hmem
      subst hmem
      rfl

/-- C2: upserting twice under one natural key leaves exactly one row with
that key, and that row's non-key fields are those of the second pass. -/
theorem C2_upsert_idempotent :
    ∀ (table : List TxRow) (r r2 : TxRow), txKey r2 = txKey r →
      countKeyed table (txKey r) ≤ 1 →
      countKeyed (upsertTransaction (upsertTransaction table r) r2) (txKey r) = 1 ∧
      ∀ x ∈ upsertTransaction (upsertTransaction table r) r2,
        txKey x = txKey r → txNonKey x = txNonKey r2 := by
  intro table r r2 hkey hcount
  have h1 : countKeyed (upsertTransaction table r) (txKey r) = 1 :=
    upsert_count_eq_one table r hcount
  constructor
  · have h2 := upsert_count_eq_one (upsertTransaction table r) r2
      (by rw [hkey, h1])
    rwa [hkey] at h2
  · intro x hx hk
    exact upsert_nonkey (upsertTransaction table r) r2 x hx (by rw [hkey]; exact hk)

/-- First pass of a transaction row (used by the C2 witness). -/
def c2row1 : TxRow :=
  { filingAccession := "0000000000-24-000003", insiderId := "in-1", issuerId := "is-1",
    transactionDate := "2024-01-02", transactionCode := "P", shares := 10, price := 5,
    transactionValue := 50, postTransactionShares := 100, isDirectOwnership := true,
    is10b51 := false, signalScore := 1 }

/-- Second pass of the same natural key with refreshed non-key fields. -/
def c2row2 : TxRow :=
  { c2row1 with transactionCode := "S", signalScore := 2, postTransactionShares := 90 }

/-- Witness for C2: the same filing row processed twice from an empty
table leaves one row, carrying the second pass's non-key fields. -/
theorem C2_upsert_idempotent_witness :
    txKey c2row2 = txKey c2row1 ∧ countKeyed [] (txKey c2row1) ≤ 1 ∧
    (countKeyed (upsertTransaction (upsertTransaction [] c2row1) c2row2) (txKey c2row1) = 1 ∧
     ∀ x ∈ upsertTransaction (upsertTransaction [] c2row1) c2row2,
       txKey x = txKey c2row1 → txNonKey x = txNonKey c2row2) :=
  ⟨rfl, by simp [countKeyed],
   C2_upsert_idempotent [] c2row1 c2row2 rfl (by simp [countKeyed])⟩

/-! ### Alert-audit lemmas for C4 -/

/-- Urgent alert count of a cons cell. -/
lemma urgentCount_cons (a : AlertRow) (l : List AlertRow) (transactionId : String) :
    urgentCount (a :: l) transactionId =
      (if a.transactionId = transactionId ∧ a.alertType = "urgent" then 1 else 0) +
        urgentCount l transactionId := by
  simp only [urgentCount, List.filter_cons]
  by_cases h1 : a.transactionId = transactionId
  · by_cases h2 : a.alertType = "urgent" <;> simp [h1, h2, Nat.add_comm]
  · simp [h1]

/-- Urgent alert counts add over concatenation. -/
lemma urgentCount_append (l1 l2 : List AlertRow) (transactionId : String) :
    urgentCount (l1 ++ l2) transactionId =
      urgentCount l1 transactionId + urgentCount l2 transactionId := by
  simp [urgentCount, List.filter_append]

/-- A missed urgent pre-check means no urgent row for that transaction. -/
lemma urgentCount_zero_of_no_alert (alerts : List AlertRow) (transactionId : String)
    (h : hasSlackAlertForTransaction alerts transactionId "urgent" = false) :
    urgentCount alerts transactionId = 0 := by
  rw [hasSlackAlertForTransaction, List.any_eq_false] at h
  simp only [urgentCount, List.length_eq_zero, List.filter_eq_nil_iff]
  intro a ha
  have := h a ha
  simp only [Bool.and_eq_true, decide_eq_true_eq] at this ⊢
  exact fun hc => this ⟨hc.1, hc.2⟩

/-- One alert-writing step preserves the at-most-one-urgent invariant. -/
lemma stepAlerts_preserves (alerts : List AlertRow) (st : AlertStep)
    (h : ∀ t : String, urgentCount alerts t ≤ 1) :
    ∀ t : String, urgentCount (stepAlerts alerts st) t ≤ 1 := by
  intro t
  cases st with
  | digest txId issId =>
    simp only [stepAlerts, urgentCount_append]
    have hz : urgentCount [⟨txId, issId, "digest"⟩] t = 0 := by
      simp [urgentCount_cons, urgentCount]
    rw [hz]
    simpa using h t
  | urgent p =>
    simp only [stepAlerts, postUrgentAlert]
    by_cases hpre : hasSlackAlertForTransaction alerts p.transactionId "urgent" = true
    · rw [if_pos hpre]
      exact h t
    · rw [if_neg hpre]
      by_cases hsend : p.sendOk = true
      · rw [if_pos hsend]
        simp only [urgentCount_append]
        by_cases ht : p.transactionId = t
        · have h0 : urgentCount alerts t = 0 := by
            rw [← ht]
            exact urgentCount_zero_of_no_alert alerts p.transactionId
              (by simpa using hpre)
          rw [h0]
          simp [urgentCount_cons, urgentCount, ht]
        · have h1 : urgentCount [⟨p.transactionId, p.issuerId, "urgent"⟩] t = 0 := by
            simp [urgentCount_cons, urgentCount, ht]
          rw [h1]
          simpa using h t
      · rw [if_neg hsend]
        exact h t

/-- The invariant holds along any step sequence from an invariant state. -/
lemma foldl_stepAlerts_preserves (steps : List AlertStep) :
    ∀ alerts : List AlertRow, (∀ t : String, urgentCount alerts t ≤ 1) →
      ∀ t : String, urgentCount (steps.foldl stepAlerts alerts) t ≤ 1 := by
  induction steps with
  | nil => intro alerts h t; exact h t
  | cons st steps ih =>
    intro alerts h t
    exact ih (stepAlerts alerts st) (stepAlerts_preserves alerts st h) t

/-- C4: every reachable slack_alerts state has at most one urgent row per
transaction; an existing urgent row short-circuits the post (nothing sent,
nothing written); a failed send writes nothing; and a state change is
exactly the append of one urgent row after a successful send with a clear
pre-check. -/
theorem C4_urgent_alert_unique :
    (∀ (steps : List AlertStep) (transactionId : String),
      urgentCount (runAlertSteps steps) transactionId ≤ 1) ∧
    (∀ (alerts : List AlertRow) (p : UrgentPost),
      hasSlackAlertForTransaction alerts p.transactionId "urgent" = true →
      postUrgentAlert alerts p = (alerts, false)) ∧
    (∀ (alerts : List AlertRow) (p : UrgentPost),
      p.sendOk = false → (postUrgentAlert alerts p).1 = alerts) ∧
    (∀ (alerts : List AlertRow) (p : UrgentPost),
      (postUrgentAlert alerts p).1 ≠ alerts →
      p.sendOk = true ∧
      hasSlackAlertForTransaction alerts p.transactionId "urgent" = false ∧
      (postUrgentAlert alerts p).1 = alerts ++
        [{ transactionId := p.transactionId, issuerId := p.issuerId,
           alertType := "urgent" }]) := by
  refine ⟨?_, ?_, ?_, ?_⟩
  · intro steps transactionId
    exact foldl_stepAlerts_preserves steps [] (by intro t; simp [urgentCount]) transactionId
  · intro alerts p hpre
    simp [postUrgentAlert, hpre]
  · intro alerts p hsend
    simp only [postUrgentAlert, hsend]
    by_cases hpre : hasSlackAlertForTransaction alerts p.transactionId "urgent" = true <;>
      simp [hpre]
  · intro alerts p hchange
    by_cases hpre : hasSlackAlertForTransaction alerts p.transactionId "urgent" = true
    · exact absurd (by simp [postUrgentAlert, hpre]) hchange
    · by_cases hsend : p.sendOk = true
      · exact ⟨hsend, by simpa using hpre, by simp [postUrgentAlert, hpre, hsend]⟩
      · exact absurd (by simp [postUrgentAlert, hpre, hsend]) hchange

/-- Witness for C4: with an urgent row already present the post is
skipped. -/
theorem C4_urgent_alert_unique_witness :
    hasSlackAlertForTransaction
      [{ transactionId := "t1", issuerId := "i1", alertType := "urgent" }] "t1" "urgent" = true ∧
    postUrgentAlert
      [{ transactionId := "t1", issuerId := "i1", alertType := "urgent" }]
      { transactionId := "t1", issuerId := "i1", sendOk := true } =
      ([{ transactionId := "t1", issuerId := "i1", alertType := "urgent" }], false) :=
  ⟨by with_unfolding_all decide,
   C4_urgent_alert_unique.2.1 _ _ (by with_unfolding_all decide)⟩

/-! ### Temporal-lookup lemmas for C5 -/

/-- maxDate misses exactly on the empty list. -/
lemma maxDate_eq_none (l : List ℤ) : maxDate l = none ↔ l = [] := by
  cases l with
  | nil => simp [maxDate]
  | cons d ds =>
    simp only [maxDate]
    cases h : maxDate ds <;> simp

/-- The maximum is one of the dates. -/
lemma maxDate_mem (l : List ℤ) (m : ℤ) (h : maxDate l = some m) : m ∈ l := by
  induction l generalizing m with
  | nil => simp [maxDate] at h
  | cons d ds ih =>
    simp only [maxDate] at h
    cases hds : maxDate ds with
    | none =>
      rw [hds] at h
      simp only [Option.some_inj] at h
      simp [← h]
    | some m2 =>
      rw [hds] at h
      simp only [Option.some_inj] at h
      rcases max_cases d m2 with ⟨he, _⟩ | ⟨he, _⟩
      · simp [← h, he]
      · right
        rw [← h, he]
        exact ih m2 hds

/-- The maximum bounds every date. -/
lemma maxDate_le (l : List ℤ) (m : ℤ) (h : maxDate l = some m) :
    ∀ x ∈ l, x ≤ m := by
  induction l generalizing m with
  | nil => simp
  | cons d ds ih =>
    intro x hx
    simp only [maxDate] at h
    cases hds : maxDate ds with
    | none =>
      rw [hds] at h
      simp only [Option.some_inj] at h
      have : ds = [] := (maxDate_eq_none ds).mp hds
      subst this
      simp at hx
      omega
    | some m2 =>
      rw [hds] at h
      simp only [Option.some_inj] at h
      rcases List.mem_cons.mp hx with rfl | hx2
      · rw [← h]
        exact le_max_left _ _
      · calc x ≤ m2 := ih m2 hds x hx2
          _ ≤ m := by rw [← h]; exact le_max_right _ _

/-- C5: the first-activity flag is granted iff the persistence layer holds
no transaction of the insider dated inside the trailing 180-day window up
to and including the event date. -/
theorem C5_first_activity_iff :
    ∀ (rows : List DatedTx) (insiderId : String) (transactionDate : ℤ),
      checkFirstActivity rows insiderId transactionDate = true ↔
        ¬ ∃ r ∈ rows, r.insiderId = insiderId ∧
            transactionDate - 180 ≤ r.transactionDate ∧
            r.transactionDate ≤ transactionDate := by
  intro rows ins d
  unfold checkFirstActivity getInsiderLastTransactionDate FIRST_ACTIVITY_DAYS
  cases hL : maxDate (rows.filterMap (fun r =>
      if r.insiderId = ins ∧ r.transactionDate ≤ d then some r.transactionDate
      else none)) with
  | none =>
    simp only [iff_true, true_iff]
    rw [maxDate_eq_none, List.filterMap_eq_nil_iff] at hL
    rintro ⟨r, hr, hins, _, hle⟩
    have := hL r hr
    rw [if_pos ⟨hins, hle⟩] at this
    exact Option.some_ne_none _ this
  | some m =>
    simp only [decide_eq_true_eq]
    constructor
    · rintro hlt ⟨r, hr, hins, hge, hle⟩
      have hmem : r.transactionDate ∈ rows.filterMap (fun r =>
          if r.insiderId = ins ∧ r.transactionDate ≤ d then some r.transactionDate
          else none) := by
        rw [List.mem_filterMap]
        exact ⟨r, hr, by rw [if_pos ⟨hins, hle⟩]⟩
      have := maxDate_le _ m hL _ hmem
      omega
    · intro hnot
      by_contra hge
      push_neg at hge
      have hm := maxDate_mem _ m hL
      rw [List.mem_filterMap] at hm
      obtain ⟨r, hr, hfr⟩ := hm
      by_cases hc : r.insiderId = ins ∧ r.transactionDate ≤ d
      · rw [if_pos hc] at hfr
        simp only [Option.some_inj] at hfr
        exact hnot ⟨r, hr, hc.1, by omega, hc.2⟩
      · rw [if_neg hc] at hfr
        exact Option.noConfusion hfr

/-! ### Sorting lemmas for C8 -/

/-- Inserting permutes to a cons. -/
lemma insertByAbsScore_perm (x : DigestTx) (l : List DigestTx) :
    List.Perm (insertByAbsScore x l) (x :: l) := by
  induction l with
  | nil => exact List.Perm.refl _
  | cons y ys ih =>
    by_cases h : absScoreGe x y = true
    · simp [insertByAbsScore, h]
    · have hfalse : absScoreGe x y = false := by simpa using h
      rw [show insertByAbsScore x (y :: ys) = y :: insertByAbsScore x ys by
        simp [insertByAbsScore, hfalse]]
      exact (List.Perm.cons y ih).trans (List.Perm.swap x y ys)

/-- The digest sort permutes its input. -/
lemma sortByAbsScoreDesc_perm (l : List DigestTx) :
    List.Perm (sortByAbsScoreDesc l) l := by
  induction l with
  | nil => exact List.Perm.refl _
  | cons x xs ih =>
    exact (insertByAbsScore_perm x (sortByAbsScoreDesc xs)).trans (List.Perm.cons x ih)

/-- Inserting preserves descending-absolute-score sortedness. -/
lemma insertByAbsScore_sorted (x : DigestTx) (l : List DigestTx)
    (h : List.Pairwise (fun a b => |b.signalScore| ≤ |a.signalScore|) l) :
    List.Pairwise (fun a b => |b.signalScore| ≤ |a.signalScore|)
      (insertByAbsScore x l) := by
  induction l with
  | nil => simp [insertByAbsScore]
  | cons y ys ih =>
    rw [List.pairwise_cons] at h
    by_cases hxy : absScoreGe x y = true
    · have hxy2 : |y.signalScore| ≤ |x.signalScore| := by
        simpa [absScoreGe] using hxy
      rw [show insertByAbsScore x (y :: ys) = x :: y :: ys by
        simp [insertByAbsScore, hxy]]
      rw [List.pairwise_cons]
      refine ⟨?_, List.pairwise_cons.mpr h⟩
      intro z hz
      rcases List.mem_cons.mp hz with rfl | hz2
      · exact hxy2
      · exact le_trans (h.1 z hz2) hxy2
    · have hfalse : absScoreGe x y = false := by simpa using hxy
      have hyx : |x.signalScore| ≤ |y.signalScore| := by
        have h2 := hfalse
        simp only [absScoreGe, decide_eq_false_iff_not] at h2
        exact le_of_not_le h2
      rw [show insertByAbsScore x (y :: ys) = y :: insertByAbsScore x ys by
        simp [insertByAbsScore, hfalse]]
      rw [List.pairwise_cons]
      refine ⟨?_, ih h.2⟩
      intro z hz
      have hz2 := (insertByAbsScore_perm x ys).mem_iff.mp hz
      rcases List.mem_cons.mp hz2 with rfl | hz3
      · exact hyx
      · exact h.1 z hz3

/-- The digest sort is sorted by descending absolute score. -/
lemma sortByAbsScoreDesc_sorted (l : List DigestTx) :
    List.Pairwise (fun a b => |b.signalScore| ≤ |a.signalScore|)
      (sortByAbsScoreDesc l) := by
  induction l with
  | nil => simp [sortByAbsScoreDesc]
  | cons x xs ih => exact insertByAbsScore_sorted x _ ih

/-- C8: the per-ticker digest detail is the top 3 of the transactions
sorted by descending absolute signal score; with at most 3 transactions
all appear and no omission note is emitted, and with n > 3 exactly 3
appear and the note reports the n - 3 omitted ones (for 5 transactions,
"...and 2 more"). -/
theorem C8_digest_top3 :
    (∀ txs : List DigestTx,
      (formatTickerSection txs).1 = (sortByAbsScoreDesc txs).take 3 ∧
      List.Perm (sortByAbsScoreDesc txs) txs ∧
      List.Pairwise (fun a b => |b.signalScore| ≤ |a.signalScore|)
        (sortByAbsScoreDesc txs) ∧
      (txs.length ≤ 3 →
        (formatTickerSection txs).1.length = txs.length ∧
        (formatTickerSection txs).2 = none) ∧
      (3 < txs.length →
        (formatTickerSection txs).1.length = 3 ∧
        (formatTickerSection txs).2 =
          some ("_...and " ++ toString (txs.length - 3) ++ " more transactions_"))) ∧
    (formatTickerSection c8five).2 = some "_...and 2 more transactions_" ∧
    jsIncludes "_...and 2 more transactions_" "...and 2 more" = true := by
  refine ⟨fun txs => ?_, by with_unfolding_all rfl, by with_unfolding_all decide⟩
  have hlen : (sortByAbsScoreDesc txs).length = txs.length :=
    (sortByAbsScoreDesc_perm txs).length_eq
  refine ⟨rfl, sortByAbsScoreDesc_perm txs, sortByAbsScoreDesc_sorted txs, ?_, ?_⟩
  · intro h
    constructor
    · simp only [formatTickerSection, List.length_take, hlen]
      omega
    · simp only [formatTickerSection]
      rw [if_neg (by omega)]
  · intro h
    constructor
    · simp only [formatTickerSection, List.length_take, hlen]
      omega
    · simp only [formatTickerSection]
      rw [if_pos h]

/-- Witness for C8 at the five-transaction ticker. -/
theorem C8_digest_top3_witness :
    3 < c8five.length ∧
    ((formatTickerSection c8five).1.length = 3 ∧
     (formatTickerSection c8five).2 =
       some ("_...and " ++ toString (c8five.length - 3) ++ " more transactions_")) :=
  ⟨by with_unfolding_all decide,
   (C8_digest_top3.1 c8five).2.2.2.2 (by with_unfolding_all decide)⟩

/-! ### Parser-output lemmas for C9 -/

/-- Every transaction that parseTransactionElement emits carries a P or S
code, a transaction value equal to shares times price, and shares and
price that are successful numeric parses of present fields. -/
lemma parseTransactionElement_ok (txXml : String) (tx : TransactionInfo)
    (h : parseTransactionElement txXml = .ok (some tx)) :
    (tx.transactionCode = "P" ∨ tx.transactionCode = "S") ∧
    tx.transactionValue = tx.shares * tx.pricePerShare ∧
    (∃ s : String, extractText txXml "transactionShares" = some s ∧
       parseFloatQ s = some tx.shares) ∧
    (∃ p : String, extractText txXml "transactionPricePerShare" = some p ∧
       parseFloatQ p = some tx.pricePerShare) := by
  simp only [parseTransactionElement] at h
  split at h
  · simp at h
  next hcodeT =>
  split at h
  · simp at h
  next hcodePS =>
  split at h
  · simp at h
  next hdate =>
  split at h
  · simp at h
  next hnum =>
  split at h
  next shares price hshares hprice =>
    split at h
    · simp at h
    next b hfoot =>
      simp only [Except.ok.injEq, Option.some.injEq] at h
      subst h
      have hor : (extractText txXml "transactionCode").getD "" = "P" ∨
          (extractText txXml "transactionCode").getD "" = "S" := by
        rw [not_and_or, not_not, not_not] at hcodePS
        simpa [TRANSACTION_CODE_BUY, TRANSACTION_CODE_SELL] using hcodePS
      have hnum2 : jsTruthy (extractText txXml "transactionShares") = true ∧
          jsTruthy (extractText txXml "transactionPricePerShare") = true := by
        simp only [Bool.or_eq_true, Bool.not_eq_true'] at hnum
        constructor
        · cases hs : jsTruthy (extractText txXml "transactionShares") with
          | true => rfl
          | false => exact absurd (Or.inl hs) hnum
        · cases hp : jsTruthy (extractText txXml "transactionPricePerShare") with
          | true => rfl
          | false => exact absurd (Or.inr hp) hnum
      refine ⟨hor, rfl, ?_, ?_⟩
      · cases hs : extractText txXml "transactionShares" with
        | none => rw [hs] at hnum2; simp [jsTruthy] at hnum2
        | some s =>
          refine ⟨s, rfl, ?_⟩
          rw [hs] at hshares
          simpa using hshares
      · cases hp : extractText txXml "transactionPricePerShare" with
        | none => rw [hp] at hnum2; simp [jsTruthy] at hnum2
        | some p =>
          refine ⟨p, rfl, ?_⟩
          rw [hp] at hprice
          simpa using hprice
  · simp at h

/-- Every transaction collected from a block list comes from one of the
blocks. -/
lemma collectTransactions_mem (bs : List (List Char)) (txs : List TransactionInfo)
    (h : collectTransactions bs = .ok txs) :
    ∀ tx ∈ txs, ∃ b ∈ bs, parseTransactionElement (String.mk b) = .ok (some tx) := by
  induction bs generalizing txs with
  | nil =>
    simp only [collectTransactions, Except.ok.injEq] at h
    subst h
    simp
  | cons b bs ih =>
    simp only [collectTransactions] at h
    split at h
    · simp at h
    · intro tx htx
      obtain ⟨b2, hb2, he⟩ := ih txs h tx htx
      exact ⟨b2, List.mem_cons_of_mem b hb2, he⟩
    next tx0 he0 =>
      split at h
      · simp at h
      next txs0 hrest =>
        simp only [Except.ok.injEq] at h
        subst h
        intro tx htx
        rcases List.mem_cons.mp htx with rfl | htx2
        · exact ⟨b, List.mem_cons_self b bs, he0⟩
        · obtain ⟨b2, hb2, he⟩ := ih txs0 hrest tx htx2
          exact ⟨b2, List.mem_cons_of_mem b hb2, he⟩

/-- Every non-derivative transaction comes from some block string. -/
lemma extractNonDeriv_mem (xml : String) (txs : List TransactionInfo)
    (h : extractNonDerivativeTransactions xml = .ok txs) :
    ∀ tx ∈ txs, ∃ txXml : String, parseTransactionElement txXml = .ok (some tx) := by
  unfold extractNonDerivativeTransactions at h
  split at h
  · simp only [Except.ok.injEq] at h
    subst h
    simp
  · intro tx htx
    obtain ⟨b, _, hb⟩ := collectTransactions_mem _ _ h tx htx
    exact ⟨String.mk b, hb⟩

/-- Every derivative transaction comes from some block string. -/
lemma extractDeriv_mem (xml : String) (txs : List TransactionInfo)
    (h : extractDerivativeTransactions xml = .ok txs) :
    ∀ tx ∈ txs, ∃ txXml : String, parseTransactionElement txXml = .ok (some tx) := by
  unfold extractDerivativeTransactions at h
  split at h
  · simp only [Except.ok.injEq] at h
    subst h
    simp
  · intro tx htx
    obtain ⟨b, _, hb⟩ := collectTransactions_mem _ _ h tx htx
    exact ⟨String.mk b, hb⟩

/-- Every transaction of a successful parse comes from some block string. -/
lemma parse_ok_mem (doc acc fd : String) (r : Form4Data)
    (h : Form4Parser.parse doc acc fd = .ok r) :
    ∀ tx ∈ r.transactions, ∃ txXml : String,
      parseTransactionElement txXml = .ok (some tx) := by
  unfold Form4Parser.parse at h
  split at h
  · simp at h
  next txs htxs =>
    simp only [Except.ok.injEq] at h
    subst h
    unfold parseTransactions at htxs
    split at htxs
    · simp at htxs
    next nonDeriv hnd =>
      split at htxs
      · simp at htxs
      next deriv hd =>
        simp only [Except.ok.injEq] at htxs
        subst htxs
        intro tx htx
        rcases List.mem_append.mp htx with hm | hm
        · exact extractNonDeriv_mem doc nonDeriv hnd tx hm
        · exact extractDeriv_mem doc deriv hd tx hm

/-- C9 amended: every transaction a successful parse emits has code P or
S, transaction value shares times price, and shares and price read by a
successful numeric parse of present fields of its transaction block; the
parser does not constrain their signs. -/
theorem C9_parser_numeric_guarantees :
    ∀ (doc acc fd : String) (r : Form4Data),
      Form4Parser.parse doc acc fd = .ok r →
      ∀ tx ∈ r.transactions,
        (tx.transactionCode = "P" ∨ tx.transactionCode = "S") ∧
        tx.transactionValue = tx.shares * tx.pricePerShare ∧
        (∃ txXml s p : String,
          extractText txXml "transactionShares" = some s ∧
          parseFloatQ s = some tx.shares ∧
          extractText txXml "transactionPricePerShare" = some p ∧
          parseFloatQ p = some tx.pricePerShare) := by
  intro doc acc fd r h tx htx
  obtain ⟨txXml, he⟩ := parse_ok_mem doc acc fd r h tx htx
  obtain ⟨hor, hval, ⟨s, hs, hsv⟩, ⟨p, hp, hpv⟩⟩ := parseTransactionElement_ok txXml tx he
  exact ⟨hor, hval, txXml, s, p, hs, hsv, hp, hpv⟩

/-- The transaction record of the negative-shares document. -/
def c9tx : TransactionInfo :=
  { transactionDate := "2024-01-02", transactionCode := "P", shares := -5,
    pricePerShare := 1, transactionValue := -5, postTransactionShares := some 0,
    isDirectOwnership := false, is10b51 := false }

/-- The full parse result of the negative-shares document. -/
def c9form : Form4Data :=
  { accessionNumber := "0000000000-24-000002", filingDate := "2024-01-03",
    issuer := { cik := "", ticker := none, companyName := "" },
    insider := { name := "", title := none, isDirector := false, isOfficer := false,
                 isTenPercentOwner := false, isOther := false },
    transactions := [c9tx] }

/-- Witness for the amended C9 at the negative-shares document. -/
theorem C9_parser_numeric_guarantees_witness :
    Form4Parser.parse c9doc "0000000000-24-000002" "2024-01-03" = .ok c9form ∧
    ((c9tx.transactionCode = "P" ∨ c9tx.transactionCode = "S") ∧
     c9tx.transactionValue = c9tx.shares * c9tx.pricePerShare ∧
     (∃ txXml s p : String,
        extractText txXml "transactionShares" = some s ∧
        parseFloatQ s = some c9tx.shares ∧
        extractText txXml "transactionPricePerShare" = some p ∧
        parseFloatQ p = some c9tx.pricePerShare)) :=
  ⟨by with_unfolding_all rfl,
   C9_parser_numeric_guarantees c9doc "0000000000-24-000002" "2024-01-03" c9form
     (by with_unfolding_all rfl) c9tx (by simp [c9form])⟩
